import Mathlib

/-!
Shallow embedding of the sector-ETF correlation pipeline:
`market_indices_correlation_matrix.py` (price views and correlation),
`analyze_sector_correlation.py` (pair ranking and the stooq_full variant main),
`plot_sector_correlation.py` (heatmap rendering boundary).

NaN cells of a pandas DataFrame are modelled as `none`; defined float cells as
exact rationals.  The Pearson correlation coefficient needs a real square root,
so correlation values live in `Option ℝ` (`none` = NaN).
-/

namespace SectorCorr

/-- Calendar date (year, month, day) of a row of the DatetimeIndex. -/
structure Date where
  y : ℕ
  m : ℕ
  d : ℕ
deriving DecidableEq, Repr

/-- Sort key of a date, increasing in calendar order. -/
def dateKey (dt : Date) : ℕ := dt.y * 10000 + dt.m * 100 + dt.d

/-- Key of the calendar month a date falls in (`resample("M")` grouping). -/
def monthKey (dt : Date) : ℕ := dt.y * 12 + dt.m

/-- Key of the calendar quarter a date falls in (`resample("Q")` grouping). -/
def quarterKey (dt : Date) : ℕ := dt.y * 4 + (dt.m - 1) / 3

/-- A date-indexed table of per-symbol optional values (prices or returns);
a `none` cell models a NaN. Mirrors the pandas DataFrame of the scripts. -/
structure DataFrame where
  symbols : List String
  rows : List (Date × List (Option ℚ))
deriving DecidableEq, Repr

/-- A row contains a NaN cell. -/
def rowHasNone (vals : List (Option ℚ)) : Bool := vals.any (fun v => v.isNone)

/-- Model of `df.dropna()`: drop every row that contains a NaN. -/
def dropnaT (df : DataFrame) : DataFrame :=
  { df with rows := df.rows.filter (fun r => !rowHasNone r.2) }

/-- Elementwise percent change between two rows: `b/a - 1`, NaN when either
endpoint is NaN. -/
def pctRow (prev cur : List (Option ℚ)) : List (Option ℚ) :=
  (prev.zip cur).map (fun pc =>
    match pc.1, pc.2 with
    | some a, some b => some (b / a - 1)
    | _, _ => none)

/-- Model of `df.pct_change(periods=k, fill_method=None)` on the raw row list: row `i`
is compared with row `i - k`; the first `k` rows become all-NaN. -/
def pctChangeRows (k : ℕ) (rows : List (Date × List (Option ℚ))) :
    List (Date × List (Option ℚ)) :=
  rows.enum.map (fun ir =>
    if ir.1 < k then (ir.2.1, ir.2.2.map (fun _ => none))
    else match rows.get? (ir.1 - k) with
      | some prev => (ir.2.1, pctRow prev.2 ir.2.2)
      | none => (ir.2.1, ir.2.2.map (fun _ => none)))

/-- Model of `df.pct_change(periods=k, fill_method=None)`. -/
def pct_change (k : ℕ) (df : DataFrame) : DataFrame :=
  { df with rows := pctChangeRows k df.rows }

/-- Forward-fill one row from the last seen values. -/
def ffillRow (last cur : List (Option ℚ)) : List (Option ℚ) :=
  (last.zip cur).map (fun pc => match pc.2 with | some b => some b | none => pc.1)

/-- Forward-fill all rows, column by column. -/
def ffillRows (last : List (Option ℚ)) :
    List (Date × List (Option ℚ)) → List (Date × List (Option ℚ))
  | [] => []
  | r :: rest =>
      let filled := ffillRow last r.2
      (r.1, filled) :: ffillRows filled rest

/-- Model of `df.ffill()`: forward-fill NaN cells from the previous observation. -/
def ffillT (df : DataFrame) : DataFrame :=
  { df with rows := ffillRows (df.symbols.map (fun _ => none)) df.rows }

/-- Model of `df.pct_change(periods=k)` with the pandas default fill method (pad):
forward-fill, then percent change. -/
def pct_change_pad (k : ℕ) (df : DataFrame) : DataFrame :=
  { df with rows := pctChangeRows k (ffillT df).rows }

/-- Model of `df.abs()`: elementwise absolute value; NaN cells stay NaN. -/
def absT (df : DataFrame) : DataFrame :=
  { df with rows := df.rows.map (fun r => (r.1, r.2.map (fun v => v.map (fun q => |q|)))) }

/-- Model of `df.tail(n)`: keep only the last `n` rows. -/
def tailT (n : ℕ) (df : DataFrame) : DataFrame :=
  { df with rows := df.rows.drop (df.rows.length - n) }

/-- Model of `df.resample(…).last()` on sorted rows: keep the last row of each run of
rows sharing the same period key. -/
def resampleLastRows (key : Date → ℕ) :
    List (Date × List (Option ℚ)) → List (Date × List (Option ℚ))
  | [] => []
  | [r] => [r]
  | r :: r' :: rest =>
      if key r.1 = key r'.1 then resampleLastRows key (r' :: rest)
      else r :: resampleLastRows key (r' :: rest)

/-- Model of `df.resample(…).last()`. -/
def resampleLast (key : Date → ℕ) (df : DataFrame) : DataFrame :=
  { df with rows := resampleLastRows key df.rows }

/-- The fixed symbol universe of `market_indices_correlation_matrix.py`. -/
def SECTORS : List String :=
  ["SPY","XLK","XLF","XLE","XLI","XLP","XLU","XLV","XLY","XLB","XLRE","XLC"]

/-- The six supported views. -/
def VIEWS : List String :=
  ["daily", "monthly", "quarterly", "yoy", "volatility", "rolling"]

/-- The rolling-window length actually set in the source (`WINDOW_DAYS = 5`). -/
def WINDOW_DAYS : ℕ := 5

/-- Model of `compute_view(df, view)` of `market_indices_correlation_matrix.py`:
dispatch on the view name; an unsupported name raises
`ValueError("Unknown view: …")`, modelled as `Except.error`. -/
def compute_view (df : DataFrame) (view : String) : Except String DataFrame :=
  if view = "daily" then .ok (dropnaT (pct_change 1 df))
  else if view = "monthly" then .ok (dropnaT (pct_change_pad 1 (resampleLast monthKey df)))
  else if view = "quarterly" then .ok (dropnaT (pct_change_pad 1 (resampleLast quarterKey df)))
  else if view = "yoy" then .ok (dropnaT (pct_change_pad 252 df))
  else if view = "volatility" then .ok (dropnaT (absT (pct_change 1 df)))
  else if view = "rolling" then .ok (tailT WINDOW_DAYS (dropnaT (pct_change 1 df)))
  else .error ("Unknown view: " ++ view)

/-- Cell of a table at row `i`, column `k`: `none` when out of range, otherwise
the (possibly NaN) value. -/
def cellAt (df : DataFrame) (i k : ℕ) : Option (Option ℚ) :=
  df.rows[i]?.bind (fun r => r.2[k]?)

lemma isNone_map_abs (v : Option ℚ) : (v.map (fun q => |q|)).isNone = v.isNone := by
  cases v <;> rfl

lemma rowHasNone_map_abs (vals : List (Option ℚ)) :
    rowHasNone (vals.map (fun v => v.map (fun q => |q|))) = rowHasNone vals := by
  unfold rowHasNone
  rw [List.any_map]
  exact congrArg _ (funext fun v => isNone_map_abs v)

lemma dropnaT_absT (df : DataFrame) : dropnaT (absT df) = absT (dropnaT df) := by
  unfold dropnaT absT
  simp only [List.filter_map]
  congr 1
  refine congrArg (List.map _) (List.filter_congr ?_)
  intro r _
  simp [Function.comp, rowHasNone_map_abs]

lemma cellAt_absT (df : DataFrame) (i k : ℕ) :
    cellAt (absT df) i k = (cellAt df i k).map (Option.map (fun q => |q|)) := by
  unfold cellAt absT
  simp only [List.getElem?_map]
  cases df.rows[i]? with
  | none => rfl
  | some r => simp [List.getElem?_map]

/-- Concrete seven-row, one-symbol price table used as an evaluation input. -/
def T7 : DataFrame :=
  { symbols := ["SPY"],
    rows := [ (⟨2024, 1, 1⟩, [some 1]), (⟨2024, 1, 2⟩, [some 2]),
              (⟨2024, 1, 3⟩, [some 3]), (⟨2024, 1, 4⟩, [some 4]),
              (⟨2024, 1, 5⟩, [some 5]), (⟨2024, 1, 8⟩, [some 6]),
              (⟨2024, 1, 9⟩, [some 7]) ] }

/-- C8: the `volatility` view is the elementwise absolute value of the `daily`
view — same symbols, same row dates, and every cell of `volatility` is the
absolute value of the corresponding cell of `daily`. -/
theorem volatility_view_is_abs_of_daily (df : DataFrame) :
    compute_view df "volatility" = (compute_view df "daily").map absT
    ∧ (∀ d : DataFrame, (absT d).symbols = d.symbols)
    ∧ (∀ d : DataFrame, (absT d).rows.map Prod.fst = d.rows.map Prod.fst)
    ∧ (∀ (d : DataFrame) (i k : ℕ),
        cellAt (absT d) i k = (cellAt d i k).map (Option.map (fun q => |q|))) := by
  refine ⟨?_, fun d => rfl, fun d => by simp [absT], fun d i k => cellAt_absT d i k⟩
  show Except.ok (dropnaT (absT (pct_change 1 df)))
      = Except.map absT (Except.ok (dropnaT (pct_change 1 df)))
  simp [Except.map, dropnaT_absT]

/-- The `daily` view of `T7`. -/
def D7 : DataFrame := dropnaT (pct_change 1 T7)

/-- C2 (code bug): the source sets `WINDOW_DAYS = 5`, so the `rolling` view is
the `daily` view truncated to its most recent 5 rows, not 60 as the module
docstring ("last 60 trading days of daily % returns") and the spec state.  On
a 7-row price table the `daily` view has 6 rows; truncation to 60 rows would
keep all 6, but the code keeps only 5. -/
theorem rolling_view_truncates_to_five :
    WINDOW_DAYS = 5
    ∧ (∀ df : DataFrame,
        compute_view df "rolling" = (compute_view df "daily").map (tailT WINDOW_DAYS))
    ∧ compute_view T7 "daily" = .ok D7 ∧ D7.rows.length = 6
    ∧ compute_view T7 "rolling" = .ok (tailT WINDOW_DAYS D7)
    ∧ (tailT WINDOW_DAYS D7).rows.length = 5
    ∧ (tailT 60 D7).rows.length = 6 := by
  refine ⟨rfl, fun df => ?_, rfl, by decide, rfl, by decide, by decide⟩
  show Except.ok (tailT WINDOW_DAYS (dropnaT (pct_change 1 df)))
      = Except.map (tailT WINDOW_DAYS) (Except.ok (dropnaT (pct_change 1 df)))
  rfl

/-- C4: `compute_view` fails with `ValueError("Unknown view: …")` exactly on
view names outside the supported six; on every supported name it returns a
result and raises nothing. -/
theorem compute_view_unknown_view (df : DataFrame) (v : String) :
    (v ∉ VIEWS → compute_view df v = .error ("Unknown view: " ++ v))
    ∧ (v ∈ VIEWS → ∃ out, compute_view df v = .ok out) := by
  constructor
  · intro hv
    simp only [VIEWS, List.mem_cons, List.not_mem_nil, or_false, not_or] at hv
    obtain ⟨h1, h2, h3, h4, h5, h6⟩ := hv
    simp [compute_view, h1, h2, h3, h4, h5, h6]
  · intro hv
    simp only [VIEWS, List.mem_cons, List.not_mem_nil, or_false] at hv
    rcases hv with h | h | h | h | h | h <;> subst h <;> exact ⟨_, rfl⟩

/-- C4 witness: at the unsupported name `weekly` an error is raised and at a
supported name no error is raised. -/
theorem compute_view_unknown_view_witness :
    compute_view T7 "weekly" = .error ("Unknown view: " ++ "weekly")
    ∧ ∃ out, compute_view T7 "daily" = .ok out :=
  ⟨(compute_view_unknown_view T7 "weekly").1 (by decide),
   (compute_view_unknown_view T7 "daily").2 (by decide)⟩

namespace Analyze

/-- Constant `TOP_N` of `analyze_sector_correlation.py`. -/
def TOP_N : ℕ := 5

/-- A correlation matrix loaded from CSV (`pd.read_csv(..., index_col=0)`):
column tickers and a row-major grid of optional (NaN = `none`) values. -/
structure CorrCsv where
  tickers : List String
  entries : List (List (Option ℚ))
deriving DecidableEq, Repr

/-- Model of `corr.iat[i, j]`: positional cell access; `none` when out of range or NaN. -/
def valueAt (M : CorrCsv) (i j : ℕ) : Option ℚ :=
  (M.entries[i]?.bind (fun row => row[j]?)).join

/-- The flattened upper triangle built by the script: for each `i`, every
`j > i` in column order, paired with the correlation cell. -/
def pairsList (M : CorrCsv) : List (ℕ × ℕ × Option ℚ) :=
  (List.range M.tickers.length).bind (fun i =>
    ((List.range M.tickers.length).filter (fun j => decide (i < j))).map
      (fun j => (i, j, valueAt M i j)))

/-- The pairs with a defined (non-NaN) correlation value; pandas
`nsmallest`/`nlargest` rank exactly these, dropping NaN rows. -/
def definedPairs (M : CorrCsv) : List (ℕ × ℕ × ℚ) :=
  (pairsList M).filterMap (fun p => p.2.2.map (fun q => (p.1, p.2.1, q)))

/-- Ascending order on the correlation value. -/
def valLE (a b : ℕ × ℕ × ℚ) : Prop := a.2.2 ≤ b.2.2

/-- Descending order on the correlation value. -/
def valGE (a b : ℕ × ℕ × ℚ) : Prop := b.2.2 ≤ a.2.2

instance : DecidableRel valLE := fun a b => inferInstanceAs (Decidable (a.2.2 ≤ b.2.2))

instance : DecidableRel valGE := fun a b => inferInstanceAs (Decidable (b.2.2 ≤ a.2.2))

/-- Model of `df_pairs.nsmallest(n, "Correlation")`: drop NaN rows, sort ascending by
value, keep the first `n`. -/
def nsmallest (n : ℕ) (M : CorrCsv) : List (ℕ × ℕ × ℚ) :=
  (List.insertionSort valLE (definedPairs M)).take n

/-- Model of `df_pairs.nlargest(n, "Correlation")`: drop NaN rows, sort descending by
value, keep the first `n`. -/
def nlargest (n : ℕ) (M : CorrCsv) : List (ℕ × ℕ × ℚ) :=
  (List.insertionSort valGE (definedPairs M)).take n

lemma mem_pairsList (M : CorrCsv) (i j : ℕ) (v : Option ℚ) :
    (i, j, v) ∈ pairsList M ↔ i < j ∧ j < M.tickers.length ∧ v = valueAt M i j := by
  simp only [pairsList, List.mem_bind, List.mem_map, List.mem_filter, List.mem_range,
    decide_eq_true_eq, Prod.mk.injEq]
  constructor
  · rintro ⟨i', hi', j', ⟨hj', hij⟩, hii, hjj, hv⟩
    subst hii; subst hjj
    exact ⟨hij, hj', hv.symm⟩
  · rintro ⟨hij, hjn, hv⟩
    exact ⟨i, lt_trans hij hjn, j, ⟨hjn, hij⟩, rfl, rfl, hv.symm⟩

lemma pairsList_proj_nodup (M : CorrCsv) :
    ((pairsList M).map (fun p => (p.1, p.2.1))).Nodup := by
  unfold pairsList
  rw [List.map_bind]
  rw [List.nodup_bind]
  constructor
  · intro i _
    rw [List.map_map]
    refine List.Nodup.map ?_ (List.Nodup.filter _ (List.nodup_range _))
    intro a b hab
    simpa using hab
  · refine List.Pairwise.imp ?_ (List.pairwise_lt_range _)
    intro a b hab
    intro x hxa hxb
    simp only [List.map_map, List.mem_map, Function.comp] at hxa hxb
    obtain ⟨ja, _, hja⟩ := hxa
    obtain ⟨jb, _, hjb⟩ := hxb
    rw [← hja] at hjb
    exact absurd (congrArg Prod.fst hjb).symm (Nat.ne_of_lt hab)

lemma pairsList_nodup (M : CorrCsv) : (pairsList M).Nodup :=
  (pairsList_proj_nodup M).of_map

lemma mem_definedPairs (M : CorrCsv) (i j : ℕ) (q : ℚ) :
    (i, j, q) ∈ definedPairs M
      ↔ i < j ∧ j < M.tickers.length ∧ valueAt M i j = some q := by
  unfold definedPairs
  rw [List.mem_filterMap]
  constructor
  · rintro ⟨⟨i', j', v⟩, hmem, hmap⟩
    cases v with
    | none => simp at hmap
    | some q' =>
        simp only [Option.map_some', Option.some.injEq, Prod.mk.injEq] at hmap
        obtain ⟨h1, h2, h3⟩ := hmap
        subst h1; subst h2; subst h3
        have := (mem_pairsList M i' j' (some q')).mp hmem
        exact ⟨this.1, this.2.1, this.2.2.symm⟩
  · rintro ⟨hij, hjn, hv⟩
    refine ⟨(i, j, some q), (mem_pairsList M i j (some q)).mpr ⟨hij, hjn, hv.symm⟩, rfl⟩

lemma definedPairs_nodup (M : CorrCsv) : (definedPairs M).Nodup := by
  refine List.Nodup.filterMap ?_ (pairsList_nodup M)
  rintro ⟨i, j, v⟩ ⟨i', j', v'⟩ ⟨a, b, q⟩ h h'
  cases v with
  | none => simp at h
  | some qv =>
      cases v' with
      | none => simp at h'
      | some qv' =>
          simp only [Option.map_some', Option.some.injEq, Prod.mk.injEq] at h h'
          obtain ⟨rfl, rfl, rfl⟩ := h
          obtain ⟨rfl, rfl, rfl⟩ := h'
          rfl

lemma mem_nsmallest (M : CorrCsv) (n : ℕ) (p : ℕ × ℕ × ℚ) :
    p ∈ nsmallest n M → p ∈ definedPairs M := fun h =>
  (List.perm_insertionSort valLE (definedPairs M)).mem_iff.mp (List.mem_of_mem_take h)

lemma mem_nlargest (M : CorrCsv) (n : ℕ) (p : ℕ × ℕ × ℚ) :
    p ∈ nlargest n M → p ∈ definedPairs M := fun h =>
  (List.perm_insertionSort valGE (definedPairs M)).mem_iff.mp (List.mem_of_mem_take h)

lemma nsmallest_perm (M : CorrCsv) (n : ℕ) (h : (definedPairs M).length ≤ n) :
    List.Perm (nsmallest n M) (definedPairs M) := by
  unfold nsmallest
  rw [List.take_of_length_le (by rw [(List.perm_insertionSort valLE _).length_eq]; exact h)]
  exact List.perm_insertionSort valLE _

lemma nlargest_perm (M : CorrCsv) (n : ℕ) (h : (definedPairs M).length ≤ n) :
    List.Perm (nlargest n M) (definedPairs M) := by
  unfold nlargest
  rw [List.take_of_length_le (by rw [(List.perm_insertionSort valGE _).length_eq]; exact h)]
  exact List.perm_insertionSort valGE _

/-- A 2-ticker matrix whose only off-diagonal pair is NaN, as produced by a
zero-variance symbol. -/
def M0 : CorrCsv :=
  { tickers := ["A", "B"], entries := [[some 1, none], [none, none]] }

/-- A 2-ticker matrix with every entry defined. -/
def M1 : CorrCsv :=
  { tickers := ["A", "B"], entries := [[some 1, some (1/2)], [some (1/2), some 1]] }

/-- C6 counterexample: on a square matrix whose single unordered pair has a NaN
correlation, `topN = 5` exceeds the 1 unique pair, yet neither ranked list
returns that pair — pandas `nsmallest`/`nlargest` drop NaN rows, so not all
unique pairs are returned as the claim states. -/
theorem rank_all_pairs_fails_on_nan :
    (pairsList M0).length < 5
    ∧ ¬ (∀ p ∈ pairsList M0,
          (p.1, p.2.1) ∈ (nsmallest 5 M0).map (fun r => (r.1, r.2.1))
          ∧ (p.1, p.2.1) ∈ (nlargest 5 M0).map (fun r => (r.1, r.2.1))) := by
  decide

/-- C6 (amended): `rankPairs` enumerates each unordered pair `(i, j)` with
`i < j` (column order) exactly once, and when `topN` is at least the number of
unique pairs each ranked list returns exactly the pairs whose correlation is
defined (non-NaN) — all of them, each exactly once, without error. -/
theorem rank_pairs_enumeration_and_boundary (M : CorrCsv) (n : ℕ)
    (h : (pairsList M).length ≤ n) :
    (∀ i j : ℕ,
        (i, j) ∈ (pairsList M).map (fun p => (p.1, p.2.1))
          ↔ i < j ∧ j < M.tickers.length)
    ∧ ((pairsList M).map (fun p => (p.1, p.2.1))).Nodup
    ∧ (∀ i j : ℕ, ∀ q : ℚ,
        (i, j, q) ∈ nsmallest n M
          ↔ i < j ∧ j < M.tickers.length ∧ valueAt M i j = some q)
    ∧ (∀ i j : ℕ, ∀ q : ℚ,
        (i, j, q) ∈ nlargest n M
          ↔ i < j ∧ j < M.tickers.length ∧ valueAt M i j = some q)
    ∧ (nsmallest n M).Nodup ∧ (nlargest n M).Nodup := by
  have hlen : (definedPairs M).length ≤ n :=
    le_trans (List.length_filterMap_le _ _) h
  have hs := nsmallest_perm M n hlen
  have hl := nlargest_perm M n hlen
  refine ⟨?_, pairsList_proj_nodup M, ?_, ?_, ?_, ?_⟩
  · intro i j
    constructor
    · intro hm
      obtain ⟨⟨i', j', v⟩, hmem, hproj⟩ := List.mem_map.mp hm
      simp only [Prod.mk.injEq] at hproj
      obtain ⟨rfl, rfl⟩ := hproj
      have := (mem_pairsList M i' j' v).mp hmem
      exact ⟨this.1, this.2.1⟩
    · rintro ⟨hij, hjn⟩
      exact List.mem_map.mpr
        ⟨(i, j, valueAt M i j),
         (mem_pairsList M i j (valueAt M i j)).mpr ⟨hij, hjn, rfl⟩, rfl⟩
  · intro i j q
    rw [hs.mem_iff]
    exact mem_definedPairs M i j q
  · intro i j q
    rw [hl.mem_iff]
    exact mem_definedPairs M i j q
  · exact hs.nodup_iff.mpr (definedPairs_nodup M)
  · exact hl.nodup_iff.mpr (definedPairs_nodup M)

/-- C6 witness: on a fully defined 2-ticker matrix with `topN = 5 ≥ 1` pair,
the single pair `(0, 1)` with value `1/2` is returned by the ascending ranked
list. -/
theorem rank_pairs_enumeration_and_boundary_witness :
    (pairsList M1).length ≤ 5
    ∧ ((0, 1, (1/2 : ℚ)) ∈ nsmallest 5 M1
        ↔ 0 < 1 ∧ 1 < M1.tickers.length ∧ valueAt M1 0 1 = some (1/2)) :=
  ⟨by decide, (rank_pairs_enumeration_and_boundary M1 5 (by decide)).2.2.1 0 1 (1/2)⟩

/-- C7: a pair whose correlation is NaN is present in the enumerated raw
matrix pairs but absent from both the ascending and the descending ranked
lists, for every `topN`. -/
theorem nan_pairs_excluded_from_ranking (M : CorrCsv) (n i j : ℕ)
    (hij : i < j) (hjn : j < M.tickers.length) (hnan : valueAt M i j = none) :
    (i, j, (none : Option ℚ)) ∈ pairsList M
    ∧ (∀ q : ℚ, (i, j, q) ∉ nsmallest n M)
    ∧ (∀ q : ℚ, (i, j, q) ∉ nlargest n M) := by
  refine ⟨(mem_pairsList M i j none).mpr ⟨hij, hjn, hnan.symm⟩, ?_, ?_⟩
  · intro q hq
    have := (mem_definedPairs M i j q).mp (mem_nsmallest M n _ hq)
    rw [hnan] at this
    exact Option.noConfusion this.2.2
  · intro q hq
    have := (mem_definedPairs M i j q).mp (mem_nlargest M n _ hq)
    rw [hnan] at this
    exact Option.noConfusion this.2.2

/-- C7 witness: in the NaN matrix `M0`, the pair `(0, 1)` is enumerated with a
NaN value and excluded from both ranked lists at `topN = 5`. -/
theorem nan_pairs_excluded_from_ranking_witness :
    (0, 1, (none : Option ℚ)) ∈ pairsList M0
    ∧ (∀ q : ℚ, (0, 1, q) ∉ nsmallest 5 M0)
    ∧ (∀ q : ℚ, (0, 1, q) ∉ nlargest 5 M0) :=
  nan_pairs_excluded_from_ranking M0 5 0 1 (by decide) (by decide) (by decide)

end Analyze

/-- Mean of a list of rationals (`0` for the empty list, whose variance is then
`0` and whose correlation is NaN anyway). -/
def meanQ (xs : List ℚ) : ℚ := xs.sum / xs.length

/-- A shared observation of a pair of cells: defined exactly when both cells
are in range and hold a defined value. -/
def obsCell (x y : Option (Option ℚ)) : Option (ℚ × ℚ) :=
  match x, y with
  | some (some a), some (some b) => some (a, b)
  | _, _ => none

/-- The pairwise-complete observations of columns `i` and `j`: exactly the rows
where both cells are defined, in row order.  This is the row mask pandas
`DataFrame.corr` applies independently per column pair. -/
def pairObs (df : DataFrame) (i j : ℕ) : List (ℚ × ℚ) :=
  df.rows.filterMap (fun r => obsCell r.2[i]? r.2[j]?)

/-- Sum of centered cross products, with the two centers given. -/
def covW (mx my : ℚ) (ps : List (ℚ × ℚ)) : ℚ :=
  (ps.map (fun p => (p.1 - mx) * (p.2 - my))).sum

/-- Sum of squared deviations of the first coordinates. -/
def varXW (mx : ℚ) (ps : List (ℚ × ℚ)) : ℚ :=
  (ps.map (fun p => (p.1 - mx) ^ 2)).sum

/-- Sum of squared deviations of the second coordinates. -/
def varYW (my : ℚ) (ps : List (ℚ × ℚ)) : ℚ :=
  (ps.map (fun p => (p.2 - my) ^ 2)).sum

/-- Mean of the first coordinates. -/
def mxOf (ps : List (ℚ × ℚ)) : ℚ := meanQ (ps.map Prod.fst)

/-- Mean of the second coordinates. -/
def myOf (ps : List (ℚ × ℚ)) : ℚ := meanQ (ps.map Prod.snd)

/-- Centered cross-product sum of an observation list. -/
def covQ (ps : List (ℚ × ℚ)) : ℚ := covW (mxOf ps) (myOf ps) ps

/-- Squared-deviation sum of the first coordinates. -/
def varXQ (ps : List (ℚ × ℚ)) : ℚ := varXW (mxOf ps) ps

/-- Squared-deviation sum of the second coordinates. -/
def varYQ (ps : List (ℚ × ℚ)) : ℚ := varYW (myOf ps) ps

/-- Pearson correlation of an observation list: NaN (`none`) when either
column has zero variance over the shared rows (this covers the empty and the
single-observation cases); otherwise `cov / sqrt(varX * varY)`.  The sample
scaling factors cancel, so the unnormalized sums give the same ratio pandas
computes. -/
noncomputable def pearsonR (ps : List (ℚ × ℚ)) : Option ℝ :=
  if varXQ ps * varYQ ps = 0 then none
  else some ((covQ ps : ℝ) / Real.sqrt ((varXQ ps * varYQ ps : ℚ) : ℝ))

/-- Correlation of columns `i` and `j` of a return table, over exactly the rows
where both are defined. -/
noncomputable def corrEntry (df : DataFrame) (i j : ℕ) : Option ℝ :=
  pearsonR (pairObs df i j)

/-- Model of `df.corr()`: the symbol-by-symbol correlation matrix, indexed by the
column order of the input in both dimensions. -/
noncomputable def corr (df : DataFrame) : List (List (Option ℝ)) :=
  (List.range df.symbols.length).map (fun i =>
    (List.range df.symbols.length).map (fun j => corrEntry df i j))

/-- Entry of a nested-list matrix, `none` when out of range. -/
def matEntry {α : Type} (M : List (List α)) (i j : ℕ) : Option α :=
  M[i]?.bind (fun row => row[j]?)

lemma corr_length (df : DataFrame) : (corr df).length = df.symbols.length := by
  simp [corr]

lemma corr_row_length (df : DataFrame) :
    ∀ row ∈ corr df, row.length = df.symbols.length := by
  intro row hrow
  obtain ⟨i, _, rfl⟩ := List.mem_map.mp hrow
  simp

lemma matEntry_corr (df : DataFrame) (i j : ℕ)
    (hi : i < df.symbols.length) (hj : j < df.symbols.length) :
    matEntry (corr df) i j = some (corrEntry df i j) := by
  unfold matEntry corr
  rw [List.getElem?_map, List.getElem?_range hi]
  simp [List.getElem?_map, List.getElem?_range hj]

lemma obsCell_swap (x y : Option (Option ℚ)) :
    obsCell y x = (obsCell x y).map Prod.swap := by
  cases x with
  | none =>
      cases y with
      | none => rfl
      | some b => cases b <;> rfl
  | some a =>
      cases a with
      | none =>
          cases y with
          | none => rfl
          | some b => cases b <;> rfl
      | some a =>
          cases y with
          | none => rfl
          | some b => cases b <;> rfl

lemma pairObs_swap (df : DataFrame) (i j : ℕ) :
    pairObs df j i = (pairObs df i j).map Prod.swap := by
  unfold pairObs
  rw [List.map_filterMap]
  have h : (fun r : Date × List (Option ℚ) => obsCell r.2[j]? r.2[i]?)
      = fun r => (obsCell r.2[i]? r.2[j]?).map Prod.swap :=
    funext fun r => obsCell_swap _ _
  rw [h]

lemma map_swap_fst (ps : List (ℚ × ℚ)) :
    (ps.map Prod.swap).map Prod.fst = ps.map Prod.snd := by
  rw [List.map_map]
  rfl

lemma map_swap_snd (ps : List (ℚ × ℚ)) :
    (ps.map Prod.swap).map Prod.snd = ps.map Prod.fst := by
  rw [List.map_map]
  rfl

lemma mxOf_swap (ps : List (ℚ × ℚ)) : mxOf (ps.map Prod.swap) = myOf ps := by
  unfold mxOf myOf meanQ
  rw [map_swap_fst]

lemma myOf_swap (ps : List (ℚ × ℚ)) : myOf (ps.map Prod.swap) = mxOf ps := by
  unfold mxOf myOf meanQ
  rw [map_swap_snd]

lemma covW_swap (mx my : ℚ) (ps : List (ℚ × ℚ)) :
    covW mx my (ps.map Prod.swap) = covW my mx ps := by
  induction ps with
  | nil => rfl
  | cons p ps ih => simp [covW] at ih ⊢; rw [ih]; ring_nf

lemma varXW_swap (mx : ℚ) (ps : List (ℚ × ℚ)) :
    varXW mx (ps.map Prod.swap) = varYW mx ps := by
  induction ps with
  | nil => rfl
  | cons p ps ih => simp [varXW, varYW] at ih ⊢; rw [ih]

lemma varYW_swap (my : ℚ) (ps : List (ℚ × ℚ)) :
    varYW my (ps.map Prod.swap) = varXW my ps := by
  induction ps with
  | nil => rfl
  | cons p ps ih => simp [varXW, varYW] at ih ⊢; rw [ih]

lemma pearsonR_swap (ps : List (ℚ × ℚ)) :
    pearsonR (ps.map Prod.swap) = pearsonR ps := by
  unfold pearsonR covQ varXQ varYQ
  rw [mxOf_swap, myOf_swap, covW_swap, varXW_swap, varYW_swap,
    mul_comm (varYW (myOf ps) ps) (varXW (mxOf ps) ps)]

lemma corrEntry_symm (df : DataFrame) (i j : ℕ) :
    corrEntry df j i = corrEntry df i j := by
  unfold corrEntry
  rw [pairObs_swap, pearsonR_swap]

lemma covW_cons (mx my : ℚ) (p : ℚ × ℚ) (ps : List (ℚ × ℚ)) :
    covW mx my (p :: ps) = (p.1 - mx) * (p.2 - my) + covW mx my ps := by
  simp [covW]

lemma varXW_cons (mx : ℚ) (p : ℚ × ℚ) (ps : List (ℚ × ℚ)) :
    varXW mx (p :: ps) = (p.1 - mx) ^ 2 + varXW mx ps := by
  simp [varXW]

lemma varYW_cons (my : ℚ) (p : ℚ × ℚ) (ps : List (ℚ × ℚ)) :
    varYW my (p :: ps) = (p.2 - my) ^ 2 + varYW my ps := by
  simp [varYW]

lemma obsCell_diag (x : Option (Option ℚ)) (p : ℚ × ℚ) (h : obsCell x x = some p) :
    p.1 = p.2 := by
  cases x with
  | none => exact absurd h (by simp [obsCell])
  | some a =>
      cases a with
      | none => exact absurd h (by simp [obsCell])
      | some q =>
          simp only [obsCell, Option.some.injEq] at h
          rw [← h]

lemma pairObs_diag (df : DataFrame) (i : ℕ) : ∀ p ∈ pairObs df i i, p.1 = p.2 := by
  intro p hp
  obtain ⟨r, _, hr⟩ := List.mem_filterMap.mp hp
  exact obsCell_diag _ p hr

lemma mxOf_eq_myOf_of_diag (ps : List (ℚ × ℚ)) (h : ∀ p ∈ ps, p.1 = p.2) :
    mxOf ps = myOf ps := by
  unfold mxOf myOf meanQ
  rw [List.map_congr_left h]

lemma covW_eq_varXW_of_diag (mx : ℚ) (ps : List (ℚ × ℚ)) (h : ∀ p ∈ ps, p.1 = p.2) :
    covW mx mx ps = varXW mx ps := by
  induction ps with
  | nil => rfl
  | cons p ps ih =>
      rw [covW_cons, varXW_cons, ih (fun q hq => h q (List.mem_cons_of_mem p hq)),
        ← h p (List.mem_cons_self p ps)]
      ring_nf

lemma varYW_eq_varXW_of_diag (m : ℚ) (ps : List (ℚ × ℚ)) (h : ∀ p ∈ ps, p.1 = p.2) :
    varYW m ps = varXW m ps := by
  induction ps with
  | nil => rfl
  | cons p ps ih =>
      rw [varYW_cons, varXW_cons, ih (fun q hq => h q (List.mem_cons_of_mem p hq)),
        ← h p (List.mem_cons_self p ps)]

lemma varXW_nonneg (mx : ℚ) (ps : List (ℚ × ℚ)) : 0 ≤ varXW mx ps := by
  induction ps with
  | nil => exact le_refl 0
  | cons p ps ih => rw [varXW_cons]; exact add_nonneg (sq_nonneg _) ih

lemma varYW_nonneg (my : ℚ) (ps : List (ℚ × ℚ)) : 0 ≤ varYW my ps := by
  induction ps with
  | nil => exact le_refl 0
  | cons p ps ih => rw [varYW_cons]; exact add_nonneg (sq_nonneg _) ih

lemma corrEntry_diag (df : DataFrame) (i : ℕ) :
    corrEntry df i i = some 1 ∨ corrEntry df i i = none := by
  unfold corrEntry pearsonR
  have hdiag : ∀ p ∈ pairObs df i i, p.1 = p.2 := pairObs_diag df i
  have hmy : myOf (pairObs df i i) = mxOf (pairObs df i i) :=
    (mxOf_eq_myOf_of_diag _ hdiag).symm
  have hcov : covQ (pairObs df i i) = varXQ (pairObs df i i) := by
    unfold covQ varXQ
    rw [hmy]
    exact covW_eq_varXW_of_diag _ _ hdiag
  have hvy : varYQ (pairObs df i i) = varXQ (pairObs df i i) := by
    unfold varYQ varXQ
    rw [hmy]
    exact varYW_eq_varXW_of_diag _ _ hdiag
  by_cases h0 : varXQ (pairObs df i i) = 0
  · right
    rw [if_pos (by rw [hvy, h0, mul_zero])]
  · left
    rw [hcov, hvy, if_neg (mul_ne_zero h0 h0)]
    congr 1
    have hpos : (0 : ℚ) < varXQ (pairObs df i i) :=
      lt_of_le_of_ne (varXW_nonneg _ _) (Ne.symm h0)
    have hposR : (0 : ℝ) < (varXQ (pairObs df i i) : ℝ) := by exact_mod_cast hpos
    push_cast
    rw [Real.sqrt_mul_self hposR.le, div_self hposR.ne']

lemma sum_map_get (F : ℚ × ℚ → ℚ) (ps : List (ℚ × ℚ)) :
    (ps.map F).sum = ∑ k : Fin ps.length, F (ps.get k) := by
  conv_lhs => rw [← List.ofFn_get ps]
  rw [List.map_ofFn, List.sum_ofFn]
  rfl

lemma covQ_sq_le (ps : List (ℚ × ℚ)) : covQ ps ^ 2 ≤ varXQ ps * varYQ ps := by
  unfold covQ varXQ varYQ covW varXW varYW
  rw [sum_map_get, sum_map_get, sum_map_get]
  exact Finset.sum_mul_sq_le_sq_mul_sq Finset.univ _ _

lemma corrEntry_range (df : DataFrame) (i j : ℕ) (r : ℝ)
    (h : corrEntry df i j = some r) : -1 ≤ r ∧ r ≤ 1 := by
  unfold corrEntry pearsonR at h
  by_cases h0 : varXQ (pairObs df i j) * varYQ (pairObs df i j) = 0
  · rw [if_pos h0] at h
    exact absurd h (by simp)
  · rw [if_neg h0] at h
    have hD0 : (0 : ℚ) < varXQ (pairObs df i j) * varYQ (pairObs df i j) :=
      lt_of_le_of_ne (mul_nonneg (varXW_nonneg _ _) (varYW_nonneg _ _)) (Ne.symm h0)
    have hDR : (0 : ℝ) < ((varXQ (pairObs df i j) * varYQ (pairObs df i j) : ℚ) : ℝ) := by
      exact_mod_cast hD0
    have hcs : ((covQ (pairObs df i j) : ℝ)) ^ 2
        ≤ ((varXQ (pairObs df i j) * varYQ (pairObs df i j) : ℚ) : ℝ) := by
      exact_mod_cast covQ_sq_le (pairObs df i j)
    have habs : |(covQ (pairObs df i j) : ℝ)|
        ≤ Real.sqrt ((varXQ (pairObs df i j) * varYQ (pairObs df i j) : ℚ) : ℝ) := by
      rw [Real.le_sqrt (abs_nonneg _) hDR.le, sq_abs]
      exact hcs
    have hr' : r = (covQ (pairObs df i j) : ℝ)
        / Real.sqrt ((varXQ (pairObs df i j) * varYQ (pairObs df i j) : ℚ) : ℝ) :=
      (Option.some.inj h).symm
    have hsq : (0 : ℝ)
        < Real.sqrt ((varXQ (pairObs df i j) * varYQ (pairObs df i j) : ℚ) : ℝ) :=
      Real.sqrt_pos.mpr hDR
    have hb : |r| ≤ 1 := by
      rw [hr', abs_div, abs_of_nonneg (Real.sqrt_nonneg _)]
      exact div_le_one_of_le habs (Real.sqrt_nonneg _)
    exact abs_le.mp hb

/-- Missing-value experiment: make the single cell at row `r`, column `k` NaN. -/
def setNoneRow : ℕ → List (Option ℚ) → List (Option ℚ)
  | _, [] => []
  | 0, _ :: xs => none :: xs
  | k+1, x :: xs => x :: setNoneRow k xs

/-- Apply `setNoneRow k` to the `r`-th row only. -/
def setNoneRows : ℕ → ℕ → List (Date × List (Option ℚ)) → List (Date × List (Option ℚ))
  | _, _, [] => []
  | 0, k, row :: rest => (row.1, setNoneRow k row.2) :: rest
  | r+1, k, row :: rest => row :: setNoneRows r k rest

/-- The table with the cell at row `r`, column `k` made NaN. -/
def dropCell (df : DataFrame) (r k : ℕ) : DataFrame :=
  { df with rows := setNoneRows r k df.rows }

lemma setNoneRow_getElem? (k i : ℕ) (h : k ≠ i) (vals : List (Option ℚ)) :
    (setNoneRow k vals)[i]? = vals[i]? := by
  induction vals generalizing k i with
  | nil => cases k <;> rfl
  | cons x xs ih =>
      cases k with
      | zero =>
          cases i with
          | zero => exact absurd rfl h
          | succ i => simp [setNoneRow]
      | succ k =>
          cases i with
          | zero => simp [setNoneRow]
          | succ i =>
              simpa [setNoneRow] using ih k i (fun he => h (congrArg Nat.succ he))

lemma pairObs_dropCell (df : DataFrame) (r k i j : ℕ) (hki : k ≠ i) (hkj : k ≠ j) :
    pairObs (dropCell df r k) i j = pairObs df i j := by
  unfold pairObs dropCell
  suffices hgen : ∀ (rows : List (Date × List (Option ℚ))) (r : ℕ),
      List.filterMap (fun rr => obsCell rr.2[i]? rr.2[j]?) (setNoneRows r k rows)
        = List.filterMap (fun rr => obsCell rr.2[i]? rr.2[j]?) rows by
    exact hgen df.rows r
  intro rows
  induction rows with
  | nil => intro r; cases r <;> rfl
  | cons row rest ih =>
      intro r
      cases r with
      | zero =>
          have hf : obsCell (setNoneRow k row.2)[i]? (setNoneRow k row.2)[j]?
              = obsCell row.2[i]? row.2[j]? := by
            rw [setNoneRow_getElem? k i hki, setNoneRow_getElem? k j hkj]
          simp only [setNoneRows, List.filterMap_cons, hf]
      | succ r =>
          simp only [setNoneRows, List.filterMap_cons, ih r]

/-- Two-symbol return table with two complete rows. -/
def W2 : DataFrame :=
  { symbols := ["A", "B"],
    rows := [ (⟨2024, 1, 1⟩, [some 1, some 2]),
              (⟨2024, 1, 2⟩, [some 2, some 1]) ] }

/-- Three-symbol return table with a NaN in the third column of the second
row. -/
def W3 : DataFrame :=
  { symbols := ["A", "B", "C"],
    rows := [ (⟨2024, 1, 1⟩, [some 1, some 2, some 3]),
              (⟨2024, 1, 2⟩, [some 2, some 3, none]),
              (⟨2024, 1, 3⟩, [some 3, some 5, some 4]) ] }

/-- C1: `df.corr()` uses pairwise-complete observations.  The correlation of
columns `i` and `j` is the Pearson statistic over exactly the rows where both
columns are defined, and making any cell of a third column `k` missing — at
any row — leaves the `(i, j)` correlation unchanged (under whole-row deletion
it would not). -/
theorem corr_pairwise_complete (df : DataFrame) (r k i j : ℕ)
    (hki : k ≠ i) (hkj : k ≠ j) :
    corrEntry df i j = pearsonR (pairObs df i j)
    ∧ corrEntry (dropCell df r k) i j = corrEntry df i j := by
  refine ⟨rfl, ?_⟩
  unfold corrEntry
  rw [pairObs_dropCell df r k i j hki hkj]

/-- C1 witness: making the cell of the third symbol in row 0 of `W3` missing
does not change the correlation of the first two symbols. -/
theorem corr_pairwise_complete_witness :
    (2 : ℕ) ≠ 0 ∧ (2 : ℕ) ≠ 1
    ∧ corrEntry (dropCell W3 0 2) 0 1 = corrEntry W3 0 1 :=
  ⟨by decide, by decide,
   (corr_pairwise_complete W3 0 2 0 1 (by decide) (by decide)).2⟩

/-- C5: for every return table with at least two symbols, `df.corr()` is
square over the symbol set in both dimensions, symmetric, has every diagonal
entry equal to `1` or NaN, and every defined entry lies in `[-1, 1]`. -/
theorem corr_matrix_invariants (df : DataFrame) (h2 : 2 ≤ df.symbols.length) :
    (corr df).length = df.symbols.length
    ∧ (∀ row ∈ corr df, row.length = df.symbols.length)
    ∧ (∀ i j : ℕ, i < df.symbols.length → j < df.symbols.length →
        matEntry (corr df) i j = some (corrEntry df i j))
    ∧ (∀ i j : ℕ, corrEntry df j i = corrEntry df i j)
    ∧ (∀ i : ℕ, corrEntry df i i = some 1 ∨ corrEntry df i i = none)
    ∧ (∀ (i j : ℕ) (r : ℝ), corrEntry df i j = some r → -1 ≤ r ∧ r ≤ 1) :=
  ⟨corr_length df, corr_row_length df, fun i j hi hj => matEntry_corr df i j hi hj,
   fun i j => corrEntry_symm df i j, fun i => corrEntry_diag df i,
   fun i j r h => corrEntry_range df i j r h⟩

/-- C5 witness: the invariants instantiated at the concrete two-symbol table
`W2`. -/
theorem corr_matrix_invariants_witness :
    2 ≤ W2.symbols.length
    ∧ ((corr W2).length = W2.symbols.length
      ∧ (∀ row ∈ corr W2, row.length = W2.symbols.length)
      ∧ (∀ i j : ℕ, i < W2.symbols.length → j < W2.symbols.length →
          matEntry (corr W2) i j = some (corrEntry W2 i j))
      ∧ (∀ i j : ℕ, corrEntry W2 j i = corrEntry W2 i j)
      ∧ (∀ i : ℕ, corrEntry W2 i i = some 1 ∨ corrEntry W2 i i = none)
      ∧ (∀ (i j : ℕ) (r : ℝ), corrEntry W2 i j = some r → -1 ≤ r ∧ r ≤ 1)) :=
  ⟨by decide, corr_matrix_invariants W2 (by decide)⟩

namespace Plot

/-- The ticker-to-industry map of `plot_sector_correlation.py`. -/
def INDUSTRY_LABELS : List (String × String) :=
  [("XLK", "Technology"), ("XLF", "Financials"), ("XLE", "Energy"),
   ("XLI", "Industrials"), ("XLP", "Consumer Staples"), ("XLU", "Utilities"),
   ("XLV", "Health Care"), ("XLY", "Consumer Discretionary"),
   ("XLB", "Materials"), ("XLRE", "Real Estate"),
   ("XLC", "Communication Services")]

/-- Model of `INDUSTRY_LABELS.get(t, t)`: the industry name, falling back to the raw
ticker. -/
def labelOf (t : String) : String := (INDUSTRY_LABELS.lookup t).getD t

/-- Outcome of `process_csv` for one file: skipped with a diagnostic, or
plotted with the derived axis labels. -/
inductive ProcessResult where
  | skipped
  | plotted (labels : List String)
deriving DecidableEq, Repr

/-- Model of `process_csv`: load the matrix; if it is not square print a warning and
return (skip), otherwise derive labels and plot. -/
def process_csv (M : Analyze.CorrCsv) : ProcessResult :=
  if M.entries.length ≠ M.tickers.length then .skipped
  else .plotted (M.tickers.map labelOf)

/-- Model of `main` of `plot_sector_correlation.py`: exit code 1 when no CSV files are
found, otherwise process every file in turn. -/
def main (csv_files : List Analyze.CorrCsv) : Except ℕ (List ProcessResult) :=
  if csv_files.isEmpty then .error 1
  else .ok (csv_files.map process_csv)

/-- A loaded matrix with three rows but two columns: not square. -/
def Mbad : Analyze.CorrCsv :=
  { tickers := ["A", "B"],
    entries := [[some 1, some 0], [some 0, some 1], [some 0, some 0]] }

/-- C9 counterexample: a non-square loaded matrix does not make the run fail
fatally — `process_csv` skips it with a diagnostic and the run continues,
processing the next file and finishing with success. -/
theorem shape_mismatch_not_fatal :
    process_csv Mbad = .skipped
    ∧ main [Mbad, Analyze.M1] = .ok [.skipped, .plotted ["A", "B"]]
    ∧ ∀ e : ℕ, main [Mbad, Analyze.M1] ≠ .error e := by
  refine ⟨rfl, rfl, ?_⟩
  intro e h
  rw [show main [Mbad, Analyze.M1]
      = Except.ok [ProcessResult.skipped, ProcessResult.plotted ["A", "B"]] from rfl] at h
  exact Except.noConfusion h

/-- C9 (amended): a non-square loaded matrix is detected at the
reporting/rendering boundary and skipped with a diagnostic — the run is not
aborted and every file still yields an outcome — while the correlation
engine's own output is always square by construction. -/
theorem shape_mismatch_skips_at_render_boundary (M : Analyze.CorrCsv)
    (files : List Analyze.CorrCsv)
    (hM : M.entries.length ≠ M.tickers.length) (hf : files ≠ []) :
    process_csv M = .skipped
    ∧ (∃ rs, main files = .ok rs ∧ rs.length = files.length)
    ∧ (∀ df : DataFrame, (corr df).length = df.symbols.length
        ∧ ∀ row ∈ corr df, row.length = df.symbols.length) := by
  refine ⟨?_, ?_, fun df => ⟨corr_length df, corr_row_length df⟩⟩
  · unfold process_csv
    rw [if_pos hM]
  · refine ⟨files.map process_csv, ?_, List.length_map _ _⟩
    unfold main
    rw [if_neg (by simp [List.isEmpty_iff]; exact hf)]

/-- C9 witness: the amended behavior at the concrete non-square matrix
`Mbad`. -/
theorem shape_mismatch_skips_witness :
    Mbad.entries.length ≠ Mbad.tickers.length
    ∧ ([Mbad] : List Analyze.CorrCsv) ≠ []
    ∧ (process_csv Mbad = .skipped
      ∧ (∃ rs, main [Mbad] = .ok rs ∧ rs.length = ([Mbad] : List Analyze.CorrCsv).length)
      ∧ (∀ df : DataFrame, (corr df).length = df.symbols.length
          ∧ ∀ row ∈ corr df, row.length = df.symbols.length)) :=
  ⟨by decide, by decide,
   shape_mismatch_skips_at_render_boundary Mbad [Mbad] (by decide) (by decide)⟩

end Plot

namespace Market

/-- A file of the output directory: a name and its contents. -/
structure FileEntry where
  name : String
  data : String
deriving DecidableEq, Repr

/-- The purge step of `main` (lines 77–80): delete every file of the CSV
directory whose name ends in `.csv`; the survivors are all other files,
untouched. -/
def purge_old_csvs (files : List FileEntry) : List FileEntry :=
  files.filter (fun f => !(f.name.endsWith ".csv"))

/-- C10: the purge deletes exactly the files whose names end in `.csv`; every
other file survives unchanged (same name, same contents). -/
theorem purge_removes_exactly_csvs (files : List FileEntry) (f : FileEntry) :
    f ∈ purge_old_csvs files ↔ f ∈ files ∧ f.name.endsWith ".csv" = false := by
  simp [purge_old_csvs, List.mem_filter]

/-- Fetch outcomes of a run: for each requested symbol, its close series or a
failure (`none`). -/
def successes (fetches : List (String × Option (List (Date × ℚ)))) :
    List (String × List (Date × ℚ)) :=
  fetches.filterMap (fun sr => sr.2.map (fun s => (sr.1, s)))

/-- Date order used to sort the joined index. -/
def dateLE (a b : Date) : Prop := dateKey a ≤ dateKey b

instance : DecidableRel dateLE := fun a b =>
  inferInstanceAs (Decidable (dateKey a ≤ dateKey b))

instance : BEq Date := ⟨fun a b => decide (a = b)⟩

/-- Collapse adjacent duplicate dates of a sorted list. -/
def dedupAdj : List Date → List Date
  | [] => []
  | [d] => [d]
  | a :: b :: rest =>
      if dateKey a = dateKey b then dedupAdj (b :: rest)
      else a :: dedupAdj (b :: rest)

/-- The union of all series dates, ascending: the outer-join index of
`pd.DataFrame(prices)` after `sort_index()`. -/
def allDates (ss : List (String × List (Date × ℚ))) : List Date :=
  dedupAdj (List.insertionSort dateLE (ss.bind (fun s => s.2.map Prod.fst)))

/-- The joined price row at one date: per symbol, the observed close if any. -/
def rowFor (ss : List (String × List (Date × ℚ))) (dt : Date) : List (Option ℚ) :=
  ss.map (fun s => s.2.lookup dt)

/-- Model of `pd.DataFrame(prices)`: outer join of the fetched series on dates. -/
def joinTable (ss : List (String × List (Date × ℚ))) : DataFrame :=
  { symbols := ss.map Prod.fst,
    rows := (allDates ss).map (fun dt => (dt, rowFor ss dt)) }

/-- Model of `df.dropna(how="all")`: keep only rows with at least one defined value. -/
def dropnaAllT (df : DataFrame) : DataFrame :=
  { df with rows := df.rows.filter (fun r => r.2.any (fun v => v.isSome)) }

/-- Table `df_prices` of `main`:
`pd.DataFrame(prices).dropna(how="all").sort_index()` (rows are built in
ascending date order). -/
def build_prices (fetches : List (String × Option (List (Date × ℚ)))) : DataFrame :=
  dropnaAllT (joinTable (successes fetches))

/-- The per-view loop of `main`: every view is computed unconditionally —
this script has no minimum-symbol check before view computation. -/
def run_views (fetches : List (String × Option (List (Date × ℚ)))) :
    List (String × Except String DataFrame) :=
  VIEWS.map (fun v => (v, compute_view (build_prices fetches) v))

/-- The stooq_full variant `main` (embedded in
`analyze_sector_correlation.py`): it guards `len(data_map) < 2` and exits
with an error before computing returns or correlations. -/
noncomputable def run_variant_main (fetches : List (String × Option (List (Date × ℚ)))) :
    Except String (List (List (Option ℝ))) :=
  if (successes fetches).length < 2 then
    .error "Not enough data to compute correlations. Exiting."
  else
    .ok (corr (dropnaT (pct_change_pad 1 (joinTable (successes fetches)))))

/-- Fetch outcome where only SPY succeeds (three trading days) and the other
eleven symbols fail. -/
def F1 : List (String × Option (List (Date × ℚ))) :=
  [("SPY", some [(⟨2024, 1, 2⟩, 100), (⟨2024, 1, 3⟩, 110), (⟨2024, 1, 4⟩, 121)]),
   ("XLK", none), ("XLF", none), ("XLE", none), ("XLI", none), ("XLP", none),
   ("XLU", none), ("XLV", none), ("XLY", none), ("XLB", none), ("XLRE", none),
   ("XLC", none)]

/-- C3 (code bug): with only one successfully fetched symbol the primary
pipeline performs no insufficient-data check: it computes all six views, the
daily view is produced with rows, and a 1×1 correlation matrix is computed —
whereas the stooq_full variant `main` in the same repository exits with an
error before any view computation. -/
theorem insufficient_data_unchecked :
    (successes F1).length = 1
    ∧ run_variant_main F1 = .error "Not enough data to compute correlations. Exiting."
    ∧ (run_views F1).length = 6
    ∧ compute_view (build_prices F1) "daily" = .ok (dropnaT (pct_change 1 (build_prices F1)))
    ∧ (dropnaT (pct_change 1 (build_prices F1))).rows.length = 2
    ∧ (corr (dropnaT (pct_change 1 (build_prices F1)))).length = 1 := by
  refine ⟨by decide, ?_, rfl, rfl, by decide, ?_⟩
  · unfold run_variant_main
    rw [if_pos (by decide)]
  · rw [corr_length]
    decide

end Market

end SectorCorr
